import Mathlib

/-!
Verification of the ts-morph-selector core (query parser + query executor)
against its natural-language specification.

The TypeScript sources embedded here:
  * `src/executor.ts`   — class `QueryExecutor`
  * `src/types.ts`      — `QueryOperator`, `WhereCondition`, `ParsedQuery`,
                          `QueryResult`, `SelectorOptions`
  * `src/parser.ts`     — class `QueryParser` (methods `parse`,
                          `parseWhereClause`, `parseCondition`, `validate`)
  * `src/index.ts`      — class `TsMorphSelector` (method `query`)

ts-morph itself (the semantic engine) is the external collaborator: its nodes
are modelled by `NodeModel`, which records exactly the observations the
executor makes of a node (`getName`, `getKindName`, `getText`,
`getModifiers`, file path data, reference resolution).  JavaScript strings
are modelled as `List Char`; JavaScript regular expressions used by the code
are modelled by hand-written matchers that implement the exact semantics of
the concrete patterns appearing in the source (leftmost match, greediness,
the `i` flag as simple case folding, `.` excluding line terminators).
-/

namespace TsMorph

/-! ## Character classes of JavaScript regular expressions -/

/-- The JavaScript `\s` class (also the set trimmed by `String.prototype.trim`):
space, tab, LF, CR, VT, FF, NBSP, and the Unicode space separators,
line/paragraph separators and BOM. -/
def isJsWhitespace (c : Char) : Bool :=
  c == ' ' || c == '\t' || c == '\n' || c == '\r' || c == '\x0b' || c == '\x0c' ||
  c.toNat == 0xa0 || c.toNat == 0x1680 ||
  (0x2000 ≤ c.toNat && c.toNat ≤ 0x200a) ||
  c.toNat == 0x2028 || c.toNat == 0x2029 || c.toNat == 0x202f || c.toNat == 0x205f ||
  c.toNat == 0x3000 || c.toNat == 0xfeff

/-- The JavaScript `\w` class: ASCII letters, digits and underscore. -/
def isWordChar (c : Char) : Bool :=
  ('a' ≤ c && c ≤ 'z') || ('A' ≤ c && c ≤ 'Z') || ('0' ≤ c && c ≤ '9') || c == '_'

/-- JavaScript line terminators, which `.` does **not** match when the `s`
flag is absent: LF, CR, LINE SEPARATOR, PARAGRAPH SEPARATOR. -/
def isLineTerminator (c : Char) : Bool :=
  c == '\n' || c == '\r' || c.toNat == 0x2028 || c.toNat == 0x2029

/-- Case folding used to model the `i` flag of the regexes in the source:
ASCII lower-casing.  The parser's keyword regexes only involve ASCII
letters, where this coincides with JavaScript canonicalization; for the
LIKE matcher the same folding is used on both the code side and the
specification side, so none of the statements below depend on how non-ASCII
letters fold. -/
def foldCase (c : Char) : Char := c.toLower

/-! ## Node model (the executor's view of a ts-morph node)

`src/executor.ts` observes a node only through the calls appearing in
`getPropertyValue` and `getReferences`; `NodeModel` records the outcome of
each such call.

* `name` — outcome of the `'name'` branch: `null` when the node has no
  `getName` method, and `getName() || null` otherwise (so an empty-string
  name also yields `null`; the field stores the final `string | null`).
* `kind`, `text` — `getKindName()` / `getText()`, always present.
* `modifiers` — `none` when the node has no `getModifiers` method, otherwise
  the list of modifier texts (the branch joins them with a space; a node
  with an empty modifier list yields the *present* empty string).
* `path`, `baseName`, `extension` — outcome of the corresponding branch:
  the node's own `getFilePath`/`getBaseName`/`getExtension` when it has one
  (source files), else the containing source file's, with `|| null`
  collapsing an empty result to `null`.
* `refs` — reference resolution: `none` when the node supports neither
  `findReferences` nor `findReferencesAsNodes`; otherwise the flattened
  ordered list of occurrence handles (opaque `Nat` identifiers) the engine
  reports. -/
structure NodeModel where
  name : Option String
  kind : String
  text : String
  modifiers : Option (List String)
  path : Option String
  baseName : Option String
  extension : Option String
  refs : Option (List Nat)
  deriving DecidableEq, Repr

/-- enum `QueryOperator` (src/types.ts). -/
inductive QueryOperator where
  | EQUALS | NOT_EQUALS | LIKE | NOT_LIKE | IN | NOT_IN
  deriving DecidableEq, Repr

/-- The `value` field of a `WhereCondition`: `string | string[]`. -/
inductive CondValue where
  | str (s : String)
  | list (l : List String)
  deriving DecidableEq, Repr

/-- interface `WhereCondition` (src/types.ts).  The `property` field is kept
as a raw string: the parser casts any word to `QueryProperty` without
checking it, and `getPropertyValue` dispatches on the string at run time. -/
structure WhereCondition where
  property : String
  operator : QueryOperator
  value : CondValue
  deriving DecidableEq, Repr

/-- interface `ParsedQuery` (src/types.ts).  `nodeType` is a raw string for
the same reason as `WhereCondition.property`: `parse` performs the cast
`fromMatch[1] as NodeType` without validation.  `whereConds` models the
optional `where` field (`none` = the key is `undefined`; `some []` = a
`WHERE` clause was found but every segment was dropped). -/
structure ParsedQuery where
  nodeType : String
  whereConds : Option (List WhereCondition)
  withReferences : Bool
  deriving DecidableEq, Repr

/-- Method `QueryExecutor.getPropertyValue` (src/executor.ts:178-220). -/
def getPropertyValue (node : NodeModel) (property : String) : Option String :=
  if property == "name" then node.name
  else if property == "kind" then some node.kind
  else if property == "text" then some node.text
  else if property == "modifier" then node.modifiers.map (fun l => String.intercalate " " l)
  else if property == "path" then node.path
  else if property == "baseName" then node.baseName
  else if property == "extension" then node.extension
  else none

/-! ## The LIKE pattern matcher (`QueryExecutor.matchesPattern`)

The source builds a regular expression from the SQL pattern: it first
escapes every regex special character (prefixing a backslash via the
replacement '\$&'), then replaces every '%' with dot-star and every '_'
with a dot, and finally tests the value against the anchored,
case-insensitive regex built from the result.

We model the three global single-character replacements literally, then
parse the produced regex fragment (whose only constructs are escaped
literals, bare literals, `.` and `.*`) into tokens, and run an anchored
matcher with the semantics of a JavaScript regex under the `i` flag and
without the `s` flag (`.` refuses line terminators). -/

/-- The character class `[.*+?^$\x7b\x7d()|[\]\\]` escaped by the first
`replace` in `matchesPattern`. -/
def regexSpecialChars : List Char :=
  ['.', '*', '+', '?', '^', '$', '\x7b', '\x7d', '(', ')', '|', '[', ']', '\\']

/-- First replacement: escape regex special characters (`'\\$&'`). -/
def escapeStep (s : List Char) : List Char :=
  s.flatMap (fun c => if regexSpecialChars.contains c then ['\\', c] else [c])

/-- Second replacement: every `%` becomes `.*`. -/
def percentStep (s : List Char) : List Char :=
  s.flatMap (fun c => if c == '%' then ['.', '*'] else [c])

/-- Third replacement: every `_` becomes `.`. -/
def underscoreStep (s : List Char) : List Char :=
  s.flatMap (fun c => if c == '_' then ['.'] else [c])

/-- The source text of the regular expression built from a LIKE pattern
(without the outer `^`/`$`, which the matcher below hard-codes). -/
def likeRegexSource (pattern : List Char) : List Char :=
  underscoreStep (percentStep (escapeStep pattern))

/-- Tokens of the regex fragment produced by `likeRegexSource`. -/
inductive RegexTok where
  | lit (c : Char)
  | anyChar
  | anyStar
  deriving DecidableEq, Repr

/-- Parse the produced regex source: `\c` is an escaped literal, `.*` is a
starred wildcard, `.` a single wildcard, anything else a literal.  This is
the JavaScript regex grammar restricted to the image of `likeRegexSource`
(in that image a bare `*` can only occur directly after a `.` coming from
`%`, so the two-character lookahead below is exact). -/
def tokenize : List Char → List RegexTok
  | [] => []
  | '\\' :: d :: rest => .lit d :: tokenize rest
  | ['\\'] => []
  | '.' :: d :: rest =>
    if d == '*' then .anyStar :: tokenize rest else .anyChar :: tokenize (d :: rest)
  | ['.'] => [.anyChar]
  | c :: rest => .lit c :: tokenize rest

/-- Fuelled anchored matcher for the token list, with JavaScript semantics:
a literal compares under case folding (`i` flag), `.` matches any character
except a line terminator, `.*` matches any (possibly empty) sequence of
non-line-terminator characters.  Each recursive call strictly decreases
`ts.length + cs.length`, so `matchToksF` with fuel above that bound computes
the true result. -/
def matchToksF : Nat → List RegexTok → List Char → Bool
  | 0, _, _ => false
  | fuel + 1, ts, cs =>
    match ts, cs with
    | [], [] => true
    | [], _ :: _ => false
    | .lit _ :: _, [] => false
    | .lit a :: ts', c :: cs' => foldCase a == foldCase c && matchToksF fuel ts' cs'
    | .anyChar :: _, [] => false
    | .anyChar :: ts', c :: cs' => !isLineTerminator c && matchToksF fuel ts' cs'
    | .anyStar :: ts', [] => matchToksF fuel ts' []
    | .anyStar :: ts', c :: cs' =>
      matchToksF fuel ts' (c :: cs') ||
      (!isLineTerminator c && matchToksF fuel (.anyStar :: ts') cs')

/-- Anchored match of a token list against a character list. -/
def matchToks (ts : List RegexTok) (cs : List Char) : Bool :=
  matchToksF (ts.length + cs.length + 1) ts cs

/-- Method `QueryExecutor.matchesPattern` (src/executor.ts:226-234). -/
def matchesPattern (value pattern : String) : Bool :=
  matchToks (tokenize (likeRegexSource pattern.data)) value.data

/-- Method `QueryExecutor.matchesCondition` (src/executor.ts:144-173).

An absent property value fails the condition outright for every operator.
The operand is `string | string[]`; branches where the run-time shape
disagrees with the operator follow the JavaScript source: `===` against a
list is `false`, `!==` against a list is `true`, `IN`/`NOT_IN` guard on
`Array.isArray` (both return `false` on a plain string).  A list operand
under `LIKE`/`NOT_LIKE` would throw in JavaScript (`pattern.replace` is not
a function); the parser never produces that shape, it is modelled as
`false`, and no theorem below depends on those two dead branches. -/
def matchesCondition (node : NodeModel) (condition : WhereCondition) : Bool :=
  match getPropertyValue node condition.property with
  | none => false
  | some value =>
    match condition.operator with
    | .EQUALS =>
      match condition.value with
      | .str s => value == s
      | .list _ => false
    | .NOT_EQUALS =>
      match condition.value with
      | .str s => value != s
      | .list _ => true
    | .LIKE =>
      match condition.value with
      | .str p => matchesPattern value p
      | .list _ => false
    | .NOT_LIKE =>
      match condition.value with
      | .str p => !matchesPattern value p
      | .list _ => false
    | .IN =>
      match condition.value with
      | .str _ => false
      | .list l => l.contains value
    | .NOT_IN =>
      match condition.value with
      | .str _ => false
      | .list l => !l.contains value

/-- Method `QueryExecutor.matchesWhereConditions` (src/executor.ts:137-139):
logical AND over the condition list (`Array.prototype.every`). -/
def matchesWhereConditions (node : NodeModel) (conditions : List WhereCondition) : Bool :=
  conditions.all (fun condition => matchesCondition node condition)

/-! ## Query parser (`class QueryParser`, src/parser.ts)

`parse` normalizes whitespace, detects and strips `WITH REFERENCES`,
requires a `FROM <word>` match, and parses the optional `WHERE` tail.  Each
JavaScript regex operation of the source is modelled by a dedicated search:
a matcher that recognises the pattern at the head of a character list, plus
a scan trying each start position left to right (JavaScript leftmost-match
semantics).  For each concrete pattern the greedy/backtracking behaviour is
resolved in a comment at the matcher. -/

/-- Trim of JavaScript `String.prototype.trim`: drop leading and trailing
`\s` characters. -/
def trimJs (s : List Char) : List Char :=
  ((s.dropWhile isJsWhitespace).reverse.dropWhile isJsWhitespace).reverse

/-- Auxiliary for `collapseWs`; the flag records whether the previous
character was whitespace (i.e. whether we are inside a run already
replaced). -/
def collapseWsAux : Bool → List Char → List Char
  | _, [] => []
  | prevWs, c :: rest =>
    if isJsWhitespace c then
      if prevWs then collapseWsAux true rest
      else ' ' :: collapseWsAux true rest
    else c :: collapseWsAux false rest

/-- Model of `.replace(/\s+/g, ' ')`: every maximal nonempty whitespace run
becomes a single space. -/
def collapseWs (s : List Char) : List Char := collapseWsAux false s

/-- Case-insensitive literal prefix match (the keywords of the grammar are
matched under the `i` flag); returns the remainder on success. -/
def matchCI : List Char → List Char → Option (List Char)
  | [], s => some s
  | _ :: _, [] => none
  | n :: ns, c :: cs => if foldCase n == foldCase c then matchCI ns cs else none

/-- Match of `/WITH\s+REFERENCES/i` at the head of `s`, returning the
remainder after the match.  The greedy `\s+` consumes the maximal
whitespace run; backtracking cannot help, because a shorter run leaves a
whitespace character where `R` is required. -/
def matchWithRefsHere (s : List Char) : Option (List Char) :=
  match matchCI "WITH".data s with
  | none => none
  | some r =>
    if (r.takeWhile isJsWhitespace).isEmpty then none
    else matchCI "REFERENCES".data (r.dropWhile isJsWhitespace)

/-- Model of `normalized.replace(/WITH\s+REFERENCES/i, '')` (first match
only, as in JavaScript `replace` with a non-global regex): `some` of the
string with the leftmost match removed, or `none` when there is no match
(so that `.isSome` is also the model of `.test`). -/
def replaceWithRefs : List Char → Option (List Char)
  | [] => none
  | c :: rest =>
    match matchWithRefsHere (c :: rest) with
    | some rem => some rem
    | none => (replaceWithRefs rest).map (fun t => c :: t)

/-- Match of `/FROM\s+(\w+)/i` at the head of `s`, returning the captured
word.  `\s+` takes the maximal whitespace run (a shorter run would leave a
whitespace character where `\w` is required, since `\s` and `\w` are
disjoint); the captured `\w+` is the maximal word-character run. -/
def matchFromHere (s : List Char) : Option (List Char) :=
  match matchCI "FROM".data s with
  | none => none
  | some r =>
    if (r.takeWhile isJsWhitespace).isEmpty then none
    else
      let word := (r.dropWhile isJsWhitespace).takeWhile isWordChar
      if word.isEmpty then none else some word

/-- Leftmost search for `/FROM\s+(\w+)/i` (model of
`queryWithoutReferences.match(...)`), returning the captured word. -/
def searchFromClause : List Char → Option (List Char)
  | [] => none
  | c :: rest =>
    match matchFromHere (c :: rest) with
    | some w => some w
    | none => searchFromClause rest

/-- Match of `/WHERE\s+(.+?)$/i` at the head of `s`, returning the capture.
Without the `m` flag `$` only matches at the very end of the input, and `.`
refuses line terminators, so the lazy `(.+?)$` forces the capture to be the
entire remainder after the greedy `\s+`, provided it is nonempty and free
of line terminators.  When the remainder after the maximal whitespace run
is empty, the engine backtracks one whitespace character into the capture
(more than one cannot help: the deepest character would have to be matched
by `.` in every longer capture). -/
def matchWhereHere (s : List Char) : Option (List Char) :=
  match matchCI "WHERE".data s with
  | none => none
  | some r =>
    let wsRun := r.takeWhile isJsWhitespace
    let rest := r.dropWhile isJsWhitespace
    if wsRun.isEmpty then none
    else if rest.isEmpty then
      if 2 ≤ wsRun.length then
        match wsRun.getLast? with
        | some c => if isLineTerminator c then none else some [c]
        | none => none
      else none
    else if rest.any isLineTerminator then none else some rest

/-- Leftmost search for `/WHERE\s+(.+?)$/i`. -/
def searchWhereClause : List Char → Option (List Char)
  | [] => none
  | c :: rest =>
    match matchWhereHere (c :: rest) with
    | some w => some w
    | none => searchWhereClause rest

/-- Match of the separator `/\s+AND\s+/i` at the head of `s`, returning the
remainder after the separator.  Both `\s+` are greedy-maximal: shortening
the first leaves whitespace where `A` is required, and nothing follows the
second inside the separator pattern. -/
def matchAndSepHere (s : List Char) : Option (List Char) :=
  if (s.takeWhile isJsWhitespace).isEmpty then none
  else
    match matchCI "AND".data (s.dropWhile isJsWhitespace) with
    | none => none
    | some r =>
      if (r.takeWhile isJsWhitespace).isEmpty then none
      else some (r.dropWhile isJsWhitespace)

/-- Fuelled worker for `splitAnd`; a separator match strictly shrinks the
remaining input, so fuel `length + 1` always suffices. -/
def splitAndF : Nat → List Char → List Char → List (List Char)
  | 0, s, acc => [acc.reverse ++ s]
  | fuel + 1, s, acc =>
    match s with
    | [] => [acc.reverse]
    | c :: rest =>
      match matchAndSepHere (c :: rest) with
      | some rem => acc.reverse :: splitAndF fuel rem []
      | none => splitAndF fuel rest (c :: acc)

/-- Model of `whereClause.split(/\s+AND\s+/i)`. -/
def splitAnd (s : List Char) : List (List Char) := splitAndF (s.length + 1) s []

/-- Quote characters accepted by the grammar (`['"]`). -/
def isQuoteChar (c : Char) : Bool := c == '\'' || c == '"'

/-- Lazy capture `(.+?)` followed by a closing delimiter class that ends the
regex: the shortest nonempty prefix, free of line terminators, whose next
character satisfies `isClose`.  Nothing follows the delimiter in any of the
three condition regexes, so the first such prefix is the JavaScript match. -/
def lazyCapture (isClose : Char → Bool) : List Char → Option (List Char)
  | [] => none
  | c :: rest =>
    if isLineTerminator c then none
    else
      match rest with
      | [] => none
      | d :: _ =>
        if isClose d then some [c]
        else (lazyCapture isClose rest).map (fun t => c :: t)

/-- Match of the optional group `(NOT\s+)?` when it is taken: `NOT` then a
nonempty whitespace run. -/
def dropNotKeyword (r : List Char) : Option (List Char) :=
  match matchCI "NOT".data r with
  | none => none
  | some r2 =>
    if (r2.takeWhile isJsWhitespace).isEmpty then none
    else some (r2.dropWhile isJsWhitespace)

/-- Tail `IN\s+\((.+?)\)` of the IN-condition regex, returning the raw text
between the parentheses.  Note the mandatory `\s+`: `name IN('a')` does not
match this regex in the source either. -/
def matchInTail (r : List Char) : Option (List Char) :=
  match matchCI "IN".data r with
  | none => none
  | some r2 =>
    if (r2.takeWhile isJsWhitespace).isEmpty then none
    else
      match r2.dropWhile isJsWhitespace with
      | '(' :: inner => lazyCapture (fun d => d == ')') inner
      | _ => none

/-- Match of `/(\w+)\s+(NOT\s+)?IN\s+\((.+?)\)/i` at the head of `s`:
captured property word, whether `NOT` was taken, and the raw list text.
The optional group is greedy (tried with `NOT` first); on failure of the
tail the engine retries without it, which can only fail again (the
remainder then starts with `NO...`, never `IN`), but the retry is modelled
for fidelity. -/
def matchInHere (s : List Char) : Option (List Char × Bool × List Char) :=
  let word := s.takeWhile isWordChar
  if word.isEmpty then none
  else
    let r1 := s.dropWhile isWordChar
    if (r1.takeWhile isJsWhitespace).isEmpty then none
    else
      let r2 := r1.dropWhile isJsWhitespace
      match dropNotKeyword r2 with
      | some r3 =>
        match matchInTail r3 with
        | some inner => some (word, true, inner)
        | none => (matchInTail r2).map (fun inner => (word, false, inner))
      | none => (matchInTail r2).map (fun inner => (word, false, inner))

/-- Leftmost search for the IN-condition regex. -/
def searchCondIn : List Char → Option (List Char × Bool × List Char)
  | [] => none
  | c :: rest =>
    match matchInHere (c :: rest) with
    | some x => some x
    | none => searchCondIn rest

/-- Tail `LIKE\s+['"](.+?)['"]` of the LIKE-condition regex.  The closing
delimiter class accepts either quote character, independently of the
opening one (as in the source regex). -/
def matchLikeTail (r : List Char) : Option (List Char) :=
  match matchCI "LIKE".data r with
  | none => none
  | some r2 =>
    if (r2.takeWhile isJsWhitespace).isEmpty then none
    else
      match r2.dropWhile isJsWhitespace with
      | q :: inner => if isQuoteChar q then lazyCapture isQuoteChar inner else none
      | [] => none

/-- Match of `/(\w+)\s+(NOT\s+)?LIKE\s+['"](.+?)['"]/i` at the head of `s`. -/
def matchLikeHere (s : List Char) : Option (List Char × Bool × List Char) :=
  let word := s.takeWhile isWordChar
  if word.isEmpty then none
  else
    let r1 := s.dropWhile isWordChar
    if (r1.takeWhile isJsWhitespace).isEmpty then none
    else
      let r2 := r1.dropWhile isJsWhitespace
      match dropNotKeyword r2 with
      | some r3 =>
        match matchLikeTail r3 with
        | some pat => some (word, true, pat)
        | none => (matchLikeTail r2).map (fun pat => (word, false, pat))
      | none => (matchLikeTail r2).map (fun pat => (word, false, pat))

/-- Leftmost search for the LIKE-condition regex. -/
def searchCondLike : List Char → Option (List Char × Bool × List Char)
  | [] => none
  | c :: rest =>
    match matchLikeHere (c :: rest) with
    | some x => some x
    | none => searchCondLike rest

/-- Match of `/(\w+)\s*(=|!=)\s*['"](.+?)['"]/i` at the head of `s`:
property word, whether the operator is `!=`, and the quoted value.  The
alternation tries `=` first, so on `!=` the first alternative fails at `!`
and the second is taken. -/
def matchEqHere (s : List Char) : Option (List Char × Bool × List Char) :=
  let word := s.takeWhile isWordChar
  if word.isEmpty then none
  else
    let finish := fun (isNeq : Bool) (r2 : List Char) =>
      match r2.dropWhile isJsWhitespace with
      | q :: inner =>
        if isQuoteChar q then
          (lazyCapture isQuoteChar inner).map (fun v => (word, isNeq, v))
        else none
      | [] => none
    match (s.dropWhile isWordChar).dropWhile isJsWhitespace with
    | '=' :: r2 => finish false r2
    | '!' :: '=' :: r2 => finish true r2
    | _ => none

/-- Leftmost search for the equality-condition regex. -/
def searchCondEq : List Char → Option (List Char × Bool × List Char)
  | [] => none
  | c :: rest =>
    match matchEqHere (c :: rest) with
    | some x => some x
    | none => searchCondEq rest

/-- Model of `inner.split(',')` (every comma splits). -/
def splitComma : List Char → List (List Char)
  | [] => [[]]
  | c :: rest =>
    if c == ',' then [] :: splitComma rest
    else
      match splitComma rest with
      | s :: ss => (c :: s) :: ss
      | [] => [[c]]

/-- Model of `.replace(/^['"]|['"]$/g, '')`: remove one leading quote
character if present, then one trailing quote character if one remains. -/
def stripEdgeQuotes (s : List Char) : List Char :=
  let s1 :=
    match s with
    | c :: rest => if isQuoteChar c then rest else c :: rest
    | [] => []
  match s1.getLast? with
  | some c => if isQuoteChar c then s1.dropLast else s1
  | none => s1

/-- IN-list member extraction (src/parser.ts:258-260): split on commas, trim
each member, strip surrounding quote characters. -/
def parseInValues (inner : List Char) : List String :=
  (splitComma inner).map (fun v => String.mk (stripEdgeQuotes (trimJs v)))

/-- Method `QueryParser.parseCondition` (src/parser.ts:252-298): the three
condition shapes are tried in fixed order — IN, then LIKE, then equality —
and a segment matching none of them is dropped (`none`). -/
def parseCondition (condition : List Char) : Option WhereCondition :=
  match searchCondIn condition with
  | some (prop, isNot, inner) =>
    some { property := String.mk prop,
           operator := if isNot then .NOT_IN else .IN,
           value := .list (parseInValues inner) }
  | none =>
  match searchCondLike condition with
  | some (prop, isNot, pat) =>
    some { property := String.mk prop,
           operator := if isNot then .NOT_LIKE else .LIKE,
           value := .str (String.mk pat) }
  | none =>
  match searchCondEq condition with
  | some (prop, isNeq, v) =>
    some { property := String.mk prop,
           operator := if isNeq then .NOT_EQUALS else .EQUALS,
           value := .str (String.mk v) }
  | none => none

/-- Method `QueryParser.parseWhereClause` (src/parser.ts:233-247): split on
`AND`, trim each part, keep the parseable conditions. -/
def parseWhereClause (whereClause : List Char) : List WhereCondition :=
  (splitAnd whereClause).filterMap (fun part => parseCondition (trimJs part))

/-- Whitespace normalization performed by `parse`:
`query.trim().replace(/\s+/g, ' ')`. -/
def normalizeQuery (query : String) : List Char := collapseWs (trimJs query.data)

/-- The query body `parse` works on after clause extraction:
`normalized.replace(/WITH\s+REFERENCES/i, '').trim()` (the replacement is
the normalized string itself when the clause is absent). -/
def queryBody (query : String) : List Char :=
  let normalized := normalizeQuery query
  trimJs ((replaceWithRefs normalized).getD normalized)

/-- Model of `/WITH\s+REFERENCES/i.test(normalized)`. -/
def hasWithReferences (query : String) : Bool :=
  (replaceWithRefs (normalizeQuery query)).isSome

/-- Method `QueryParser.parse` (src/parser.ts:205-228).  The only failure is
the missing-FROM error; the thrown `Error` is modelled as `Except.error` of
its message. -/
def parse (query : String) : Except String ParsedQuery :=
  match searchFromClause (queryBody query) with
  | none => Except.error "Invalid query: missing FROM clause"
  | some nodeTypeWord =>
    Except.ok
      { nodeType := String.mk nodeTypeWord,
        whereConds := (searchWhereClause (queryBody query)).map parseWhereClause,
        withReferences := hasWithReferences query }

/-- Result shape of `QueryParser.validate`. -/
structure ValidationResult where
  valid : Bool
  error : Option String
  deriving DecidableEq, Repr

/-- Method `QueryParser.validate` (src/parser.ts:303-313): wrap `parse`,
reporting the error message on failure. -/
def validate (query : String) : ValidationResult :=
  match parse query with
  | .ok _ => { valid := true, error := none }
  | .error e => { valid := false, error := some e }

/-! ## Query executor (`class QueryExecutor`, src/executor.ts) and façade

The program handle (`ts-morph` `Project`) is modelled by `ProjectModel`: an
ordered list of source files, each carrying its own `NodeModel` (the file
handle as a node) and the per-category declaration lists the executor
accesses (`getInterfaces`, `getClasses`, `getFunctions`, `getTypeAliases`,
`getEnums`, `getImportDeclarations`, `getExportDeclarations`,
`getVariableStatements` with their `getDeclarations`, per-class
`getMethods`/`getProperties`, per-interface `getProperties`, and
`getDescendants` for the wildcard). -/

/-- interface `SelectorOptions` (src/types.ts:334-344).  It declares exactly
two optional members: `includeNodeModules` and `maxResults`.  In particular
it declares **no** `filePattern` member. -/
structure SelectorOptions where
  includeNodeModules : Option Bool := none
  maxResults : Option Nat := none
  deriving DecidableEq, Repr

/-- An interface declaration together with the property signatures the
executor can aggregate from it. -/
structure InterfaceModel where
  self : NodeModel
  properties : List NodeModel
  deriving DecidableEq, Repr

/-- A class declaration together with its methods and property
declarations. -/
structure ClassModel where
  self : NodeModel
  methods : List NodeModel
  properties : List NodeModel
  deriving DecidableEq, Repr

/-- A variable statement with its variable declarations. -/
structure VariableStatementModel where
  declarations : List NodeModel
  deriving DecidableEq, Repr

/-- A source file as the executor observes it. -/
structure SourceFileModel where
  self : NodeModel
  interfaces : List InterfaceModel
  classes : List ClassModel
  functions : List NodeModel
  typeAliases : List NodeModel
  enums : List NodeModel
  importDeclarations : List NodeModel
  exportDeclarations : List NodeModel
  variableStatements : List VariableStatementModel
  descendants : List NodeModel
  deriving DecidableEq, Repr

/-- The program handle: `project.getSourceFiles()` in file iteration
order. -/
structure ProjectModel where
  sourceFiles : List SourceFileModel
  deriving DecidableEq, Repr

/-- Method `QueryExecutor.getNodesByType` (src/executor.ts:91-132): the
category-to-accessor lookup table; an unrecognized category hits no table
entry and yields the empty list (`return method ? method() : []`). -/
def getNodesByType (sourceFile : SourceFileModel) (nodeType : String) : List NodeModel :=
  if nodeType == "*" then sourceFile.descendants
  else if nodeType == "InterfaceDeclaration" then sourceFile.interfaces.map (fun i => i.self)
  else if nodeType == "ClassDeclaration" then sourceFile.classes.map (fun c => c.self)
  else if nodeType == "FunctionDeclaration" then sourceFile.functions
  else if nodeType == "TypeAliasDeclaration" then sourceFile.typeAliases
  else if nodeType == "EnumDeclaration" then sourceFile.enums
  else if nodeType == "ImportDeclaration" then sourceFile.importDeclarations
  else if nodeType == "ExportDeclaration" then sourceFile.exportDeclarations
  else if nodeType == "VariableDeclaration" then
    sourceFile.variableStatements.flatMap (fun st => st.declarations)
  else if nodeType == "MethodDeclaration" then
    sourceFile.classes.flatMap (fun c => c.methods)
  else if nodeType == "PropertyDeclaration" then
    sourceFile.classes.flatMap (fun c => c.properties) ++
      sourceFile.interfaces.flatMap (fun i => i.properties)
  else []

/-- Method `QueryExecutor.filterSourceFiles` (src/executor.ts:73-86).  The
guard `if (!this.options.filePattern) return sourceFiles;` always takes the
early return: the executor's options have type `SelectorOptions`
(src/executor.ts:25), which declares no `filePattern` member, so the
property read yields `undefined` on every options value.  The minimatch
branch below the guard is unreachable and therefore not modelled (minimatch
is an external library in any case). -/
def filterSourceFiles (_options : SelectorOptions) (sourceFiles : List SourceFileModel) :
    List SourceFileModel :=
  sourceFiles

/-- The ordered occurrence list reference resolution yields for a node:
empty when the node supports neither `findReferences` nor
`findReferencesAsNodes` (the `references` accumulator stays `[]`). -/
def refList (node : NodeModel) : List Nat := node.refs.getD []

/-- Method `QueryExecutor.getReferences` (src/executor.ts:239-268): one map
entry per node whose occurrence list is nonempty, in node order.  The
JavaScript `Map` keyed by node identity is modelled as an insertion-ordered
association list. -/
def getReferences (nodes : List NodeModel) : List (NodeModel × List Nat) :=
  nodes.filterMap (fun node =>
    let references := refList node
    if references.isEmpty then none else some (node, references))

/-- interface `QueryResult` (src/types.ts:326-329). -/
structure QueryResult where
  nodes : List NodeModel
  references : Option (List (NodeModel × List Nat))
  deriving DecidableEq, Repr

/-- Method `QueryExecutor.execute` (src/executor.ts:30-68).  Note two
traits of the source preserved here: the `SourceFile` special case returns
`references: undefined` unconditionally, even when the query requested
`WITH REFERENCES`; and `query.where` is tested for truthiness, so an empty
condition list (`some []`) still takes the filter branch (vacuously keeping
everything), while `none` models the `undefined` field. -/
def execute (options : SelectorOptions) (project : ProjectModel) (query : ParsedQuery) :
    QueryResult :=
  let sourceFiles := filterSourceFiles options project.sourceFiles
  if query.nodeType == "SourceFile" then
    let fileNodes := sourceFiles.map (fun sf => sf.self)
    let filteredNodes :=
      match query.whereConds with
      | some conditions => fileNodes.filter (fun n => matchesWhereConditions n conditions)
      | none => fileNodes
    { nodes := filteredNodes, references := none }
  else
    let allNodes := sourceFiles.flatMap (fun sf => getNodesByType sf query.nodeType)
    let filteredNodes :=
      match query.whereConds with
      | some conditions => allNodes.filter (fun n => matchesWhereConditions n conditions)
      | none => allNodes
    { nodes := filteredNodes,
      references := if query.withReferences then some (getReferences filteredNodes) else none }

/-- Method `TsMorphSelector.query` (src/index.ts:56-66).  The façade
constructs its executor as `new QueryExecutor(project)` — without
forwarding the selector options — so `execute` always runs with the empty
options object.  The truncation guard is the JavaScript truthiness test
`this.options.maxResults && result.nodes.length > this.options.maxResults`:
a configured value of `0` is falsy and disables truncation. -/
def selectorQuery (options : SelectorOptions) (project : ProjectModel) (queryString : String) :
    Except String QueryResult :=
  match parse queryString with
  | .error e => .error e
  | .ok parsedQuery =>
    let result := execute ({} : SelectorOptions) project parsedQuery
    Except.ok
      (match options.maxResults with
       | some m =>
         if 0 < m ∧ m < result.nodes.length then { result with nodes := result.nodes.take m }
         else result
       | none => result)

/-! ## A concrete sample program

A small program handle mirroring the fixture of `src/index.test.ts`
(`test.ts` with interfaces `User`, `Product`, classes `UserService`,
`TestService`, functions `getUserById`, `testFunction` and the type alias
`UserId`), used as the concrete input of witnesses and counterexamples.
Occurrence handles are arbitrary opaque numbers. -/

/-- Interface `User` of the fixture; three reference occurrences. -/
def userInterface : NodeModel :=
  { name := some "User", kind := "InterfaceDeclaration",
    text := "export interface User", modifiers := some ["export"],
    path := some "/test.ts", baseName := some "test.ts", extension := some ".ts",
    refs := some [10, 11, 12] }

/-- Interface `Product` of the fixture; reference resolution yields no
occurrences. -/
def productInterface : NodeModel :=
  { name := some "Product", kind := "InterfaceDeclaration",
    text := "export interface Product", modifiers := some ["export"],
    path := some "/test.ts", baseName := some "test.ts", extension := some ".ts",
    refs := some [] }

/-- Class `UserService` of the fixture. -/
def userServiceClass : NodeModel :=
  { name := some "UserService", kind := "ClassDeclaration",
    text := "export class UserService", modifiers := some ["export"],
    path := some "/test.ts", baseName := some "test.ts", extension := some ".ts",
    refs := some [20] }

/-- Class `TestService` of the fixture; modelled without reference-resolution
support. -/
def testServiceClass : NodeModel :=
  { name := some "TestService", kind := "ClassDeclaration",
    text := "export class TestService", modifiers := some ["export"],
    path := some "/test.ts", baseName := some "test.ts", extension := some ".ts",
    refs := none }

/-- The file handle of the fixture file, observed as a node. -/
def sampleFileNode : NodeModel :=
  { name := none, kind := "SourceFile",
    text := "export interface User ...", modifiers := none,
    path := some "/test.ts", baseName := some "test.ts", extension := some ".ts",
    refs := none }

/-- The fixture source file. -/
def sampleFile : SourceFileModel :=
  { self := sampleFileNode,
    interfaces := [{ self := userInterface, properties := [] },
                   { self := productInterface, properties := [] }],
    classes := [{ self := userServiceClass, methods := [], properties := [] },
                { self := testServiceClass, methods := [], properties := [] }],
    functions := [], typeAliases := [], enums := [],
    importDeclarations := [], exportDeclarations := [], variableStatements := [],
    descendants := [] }

/-- The fixture program handle. -/
def sampleProject : ProjectModel := { sourceFiles := [sampleFile] }

/-! ## Specification-level definitions

The following definitions come from the words of the specification, not from
the source; they are the yardsticks the claims compare the code against. -/

/-- The token each LIKE-pattern character turns into (the composition of the
three replacements followed by regex parsing, proved as
`tokenize_likeRegexSource` below). -/
def tokOf (c : Char) : RegexTok :=
  if c == '%' then .anyStar else if c == '_' then .anyChar else .lit c

/-- The LIKE relation as the claim states it (spec §4.2): a case-insensitive
full-string anchored match in which `%` stands for *zero or more of any
character* and `_` for *exactly one of any character*, literal characters
comparing under case folding. -/
inductive SqlLikeClaim : List Char → List Char → Prop where
  | nil : SqlLikeClaim [] []
  | lit {a c : Char} {p v : List Char} :
      a ≠ '%' → a ≠ '_' → foldCase a = foldCase c →
      SqlLikeClaim p v → SqlLikeClaim (a :: p) (c :: v)
  | underscore {c : Char} {p v : List Char} :
      SqlLikeClaim p v → SqlLikeClaim ('_' :: p) (c :: v)
  | percent {p : List Char} (w v : List Char) :
      SqlLikeClaim p v → SqlLikeClaim ('%' :: p) (w ++ v)

/-- The LIKE relation the code actually implements: as `SqlLikeClaim`, except
that the characters consumed by `%` and `_` must not be line terminators,
because the built regex uses `.` without the `s` flag. -/
inductive SqlLikeMatch : List Char → List Char → Prop where
  | nil : SqlLikeMatch [] []
  | lit {a c : Char} {p v : List Char} :
      a ≠ '%' → a ≠ '_' → foldCase a = foldCase c →
      SqlLikeMatch p v → SqlLikeMatch (a :: p) (c :: v)
  | underscore {c : Char} {p v : List Char} :
      isLineTerminator c = false →
      SqlLikeMatch p v → SqlLikeMatch ('_' :: p) (c :: v)
  | percent {p : List Char} (w v : List Char) :
      (∀ c ∈ w, isLineTerminator c = false) →
      SqlLikeMatch p v → SqlLikeMatch ('%' :: p) (w ++ v)

/-- The recognized query categories: the eleven members of the `NodeType`
union (src/types.ts:301-312, ten declaration kinds plus the wildcard)
together with `SourceFile`, which `execute` special-cases and the spec lists
as a category (§3). -/
def recognizedNodeTypes : List String :=
  ["InterfaceDeclaration", "ClassDeclaration", "FunctionDeclaration",
   "MethodDeclaration", "PropertyDeclaration", "VariableDeclaration",
   "TypeAliasDeclaration", "EnumDeclaration", "ImportDeclaration",
   "ExportDeclaration", "*", "SourceFile"]

/-! ## Lemmas: the fuelled matcher computes a fuel-independent result -/

theorem matchToksF_congr :
    ∀ (n m : Nat) (ts : List RegexTok) (cs : List Char),
      ts.length + cs.length < n → ts.length + cs.length < m →
      matchToksF n ts cs = matchToksF m ts cs := by
  intro n
  induction n with
  | zero => intro m ts cs h1 _; omega
  | succ n ih =>
    intro m ts cs h1 h2
    cases m with
    | zero => omega
    | succ m =>
      cases ts with
      | nil => cases cs <;> rfl
      | cons t ts' =>
        cases t with
        | lit a =>
          cases cs with
          | nil => rfl
          | cons c cs' =>
            show (foldCase a == foldCase c && matchToksF n ts' cs')
              = (foldCase a == foldCase c && matchToksF m ts' cs')
            rw [ih m ts' cs'
              (by simp only [List.length_cons] at h1; omega)
              (by simp only [List.length_cons] at h2; omega)]
        | anyChar =>
          cases cs with
          | nil => rfl
          | cons c cs' =>
            show (!isLineTerminator c && matchToksF n ts' cs')
              = (!isLineTerminator c && matchToksF m ts' cs')
            rw [ih m ts' cs'
              (by simp only [List.length_cons] at h1; omega)
              (by simp only [List.length_cons] at h2; omega)]
        | anyStar =>
          cases cs with
          | nil =>
            show matchToksF n ts' [] = matchToksF m ts' []
            exact ih m ts' []
              (by simp only [List.length_cons] at h1; omega)
              (by simp only [List.length_cons] at h2; omega)
          | cons c cs' =>
            simp only [List.length_cons] at h1 h2
            show (matchToksF n ts' (c :: cs')
                  || (!isLineTerminator c && matchToksF n (.anyStar :: ts') cs'))
              = (matchToksF m ts' (c :: cs')
                  || (!isLineTerminator c && matchToksF m (.anyStar :: ts') cs'))
            rw [ih m ts' (c :: cs')
                  (by simp only [List.length_cons]; omega)
                  (by simp only [List.length_cons]; omega),
                ih m (.anyStar :: ts') cs'
                  (by simp only [List.length_cons]; omega)
                  (by simp only [List.length_cons]; omega)]

theorem matchToksF_eq_matchToks (n : Nat) (ts : List RegexTok) (cs : List Char)
    (h : ts.length + cs.length < n) : matchToksF n ts cs = matchToks ts cs :=
  matchToksF_congr n (ts.length + cs.length + 1) ts cs h (by omega)

theorem matchToks_lit (a : Char) (ts : List RegexTok) (c : Char) (cs : List Char) :
    matchToks (.lit a :: ts) (c :: cs) = (foldCase a == foldCase c && matchToks ts cs) := by
  unfold matchToks
  rw [show (RegexTok.lit a :: ts).length + (c :: cs).length + 1
        = (ts.length + cs.length + 2) + 1 by simp only [List.length_cons]; omega]
  show (foldCase a == foldCase c && matchToksF (ts.length + cs.length + 2) ts cs) = _
  rw [matchToksF_eq_matchToks _ _ _ (by omega)]
  rfl

theorem matchToks_any (ts : List RegexTok) (c : Char) (cs : List Char) :
    matchToks (.anyChar :: ts) (c :: cs) = (!isLineTerminator c && matchToks ts cs) := by
  unfold matchToks
  rw [show (RegexTok.anyChar :: ts).length + (c :: cs).length + 1
        = (ts.length + cs.length + 2) + 1 by simp only [List.length_cons]; omega]
  show (!isLineTerminator c && matchToksF (ts.length + cs.length + 2) ts cs) = _
  rw [matchToksF_eq_matchToks _ _ _ (by omega)]
  rfl

theorem matchToks_star_nil (ts : List RegexTok) :
    matchToks (.anyStar :: ts) [] = matchToks ts [] := by
  unfold matchToks
  rw [show (RegexTok.anyStar :: ts).length + ([] : List Char).length + 1
        = (ts.length + 1) + 1 by simp]
  show matchToksF (ts.length + 1) ts [] = _
  rw [matchToksF_eq_matchToks _ _ _ (by simp only [List.length_nil]; omega)]
  rfl

theorem matchToks_star_cons (ts : List RegexTok) (c : Char) (cs : List Char) :
    matchToks (.anyStar :: ts) (c :: cs)
      = (matchToks ts (c :: cs) || (!isLineTerminator c && matchToks (.anyStar :: ts) cs)) := by
  unfold matchToks
  rw [show (RegexTok.anyStar :: ts).length + (c :: cs).length + 1
        = (ts.length + cs.length + 2) + 1 by simp only [List.length_cons]; omega]
  show (matchToksF (ts.length + cs.length + 2) ts (c :: cs)
        || (!isLineTerminator c && matchToksF (ts.length + cs.length + 2) (.anyStar :: ts) cs)) = _
  rw [matchToksF_eq_matchToks _ ts (c :: cs) (by simp only [List.length_cons]; omega),
      matchToksF_eq_matchToks _ (.anyStar :: ts) cs (by simp only [List.length_cons]; omega)]
  rfl

/-! ## Lemmas: the built regex source tokenizes to one token per pattern character -/

theorem likeRegexSource_cons (c : Char) (p : List Char) :
    likeRegexSource (c :: p) = likeRegexSource [c] ++ likeRegexSource p := by
  unfold likeRegexSource escapeStep percentStep underscoreStep
  simp [List.flatMap_cons, List.flatMap_append]

theorem seg_of_special {c : Char} (h : c ∈ regexSpecialChars) :
    likeRegexSource [c] = ['\\', c] := by
  simp only [regexSpecialChars, List.mem_cons, List.not_mem_nil, or_false] at h
  rcases h with rfl|rfl|rfl|rfl|rfl|rfl|rfl|rfl|rfl|rfl|rfl|rfl|rfl|rfl <;> rfl

theorem seg_percent : likeRegexSource ['%'] = ['.', '*'] := rfl

theorem seg_underscore : likeRegexSource ['_'] = ['.'] := rfl

theorem seg_plain {c : Char} (h1 : c ∉ regexSpecialChars) (h2 : c ≠ '%') (h3 : c ≠ '_') :
    likeRegexSource [c] = [c] := by
  unfold likeRegexSource escapeStep percentStep underscoreStep
  simp [List.flatMap_cons, h1, h2, h3]

theorem likeRegexSource_head_ne_star (p : List Char) :
    ∀ cs : List Char, likeRegexSource p ≠ '*' :: cs := by
  intro cs
  cases p with
  | nil => simp [likeRegexSource, escapeStep, percentStep, underscoreStep]
  | cons c p' =>
    rw [likeRegexSource_cons]
    by_cases h1 : c ∈ regexSpecialChars
    · rw [seg_of_special h1]; simp
    · by_cases h2 : c = '%'
      · subst h2; rw [seg_percent]; simp
      · by_cases h3 : c = '_'
        · subst h3; rw [seg_underscore]; simp
        · rw [seg_plain h1 h2 h3]
          have hstar : c ≠ '*' := fun hc => h1 (by rw [hc]; decide)
          simp [hstar]

theorem tokenize_dot_cons (d : Char) (rest : List Char) (hd : d ≠ '*') :
    tokenize ('.' :: d :: rest) = .anyChar :: tokenize (d :: rest) := by
  rw [show tokenize ('.' :: d :: rest)
        = if d == '*' then .anyStar :: tokenize rest
          else .anyChar :: tokenize (d :: rest) from rfl]
  simp [hd]

theorem tokenize_plain_cons (c : Char) (rest : List Char) (h1 : c ≠ '\\') (h2 : c ≠ '.') :
    tokenize (c :: rest) = .lit c :: tokenize rest := by
  rw [tokenize.eq_def]
  split <;> simp_all

theorem tokenize_likeRegexSource : ∀ p : List Char, tokenize (likeRegexSource p) = p.map tokOf := by
  intro p
  induction p with
  | nil => rfl
  | cons c p' ih =>
    rw [likeRegexSource_cons, List.map_cons]
    by_cases h1 : c ∈ regexSpecialChars
    · rw [seg_of_special h1]
      show tokenize ('\\' :: c :: likeRegexSource p') = tokOf c :: p'.map tokOf
      rw [show tokenize ('\\' :: c :: likeRegexSource p')
            = .lit c :: tokenize (likeRegexSource p') from rfl, ih]
      have hpc : c ≠ '%' := fun h => by rw [h] at h1; exact absurd h1 (by decide)
      have hpu : c ≠ '_' := fun h => by rw [h] at h1; exact absurd h1 (by decide)
      simp [tokOf, hpc, hpu]
    · by_cases h2 : c = '%'
      · subst h2; rw [seg_percent]
        show tokenize ('.' :: '*' :: likeRegexSource p') = _
        rw [show tokenize ('.' :: '*' :: likeRegexSource p')
              = .anyStar :: tokenize (likeRegexSource p') from rfl, ih]
        rfl
      · by_cases h3 : c = '_'
        · subst h3; rw [seg_underscore]
          show tokenize ('.' :: likeRegexSource p') = tokOf '_' :: p'.map tokOf
          cases hl : likeRegexSource p' with
          | nil =>
            have hmap : p'.map tokOf = [] := by rw [← ih, hl]; rfl
            rw [hmap]
            rfl
          | cons d rest' =>
            have hd : d ≠ '*' := by
              intro h
              exact likeRegexSource_head_ne_star p' rest' (by rw [hl, h])
            rw [hl] at ih
            rw [tokenize_dot_cons d rest' hd, ih]
            rfl
        · rw [seg_plain h1 h2 h3]
          show tokenize (c :: likeRegexSource p') = _
          have hc1 : c ≠ '\\' := fun h => h1 (by rw [h]; decide)
          have hc2 : c ≠ '.' := fun h => h1 (by rw [h]; decide)
          rw [tokenize_plain_cons c _ hc1 hc2, ih]
          simp [tokOf, h2, h3]

/-! ## Lemmas: inversion of the LIKE relations and the matcher equivalence -/

theorem sqlLike_nil_inv {v : List Char} (h : SqlLikeMatch [] v) : v = [] := by
  cases h
  rfl

theorem sqlLike_percent_inv {p v : List Char} (h : SqlLikeMatch ('%' :: p) v) :
    ∃ w v2, v = w ++ v2 ∧ (∀ c ∈ w, isLineTerminator c = false) ∧ SqlLikeMatch p v2 := by
  generalize hq : '%' :: p = q at h
  cases h with
  | nil => exact absurd hq (by simp)
  | lit ha hb hfold hrec =>
    injection hq with h1 h2
    exact absurd h1.symm ha
  | underscore hterm hrec =>
    injection hq with h1 h2
    exact absurd h1 (by decide)
  | percent w v2 hw hrec =>
    injection hq with h1 h2
    subst h2
    exact ⟨w, v2, rfl, hw, hrec⟩

theorem sqlLike_underscore_inv {p v : List Char} (h : SqlLikeMatch ('_' :: p) v) :
    ∃ c v', v = c :: v' ∧ isLineTerminator c = false ∧ SqlLikeMatch p v' := by
  generalize hq : '_' :: p = q at h
  cases h with
  | nil => exact absurd hq (by simp)
  | lit ha hb hfold hrec =>
    injection hq with h1 h2
    exact absurd h1.symm hb
  | underscore hterm hrec =>
    injection hq with h1 h2
    subst h2
    exact ⟨_, _, rfl, hterm, hrec⟩
  | percent w v2 hw hrec =>
    injection hq with h1 h2
    exact absurd h1 (by decide)

theorem sqlLike_lit_inv {a : Char} {p v : List Char} (ha1 : a ≠ '%') (ha2 : a ≠ '_')
    (h : SqlLikeMatch (a :: p) v) :
    ∃ c v', v = c :: v' ∧ foldCase a = foldCase c ∧ SqlLikeMatch p v' := by
  generalize hq : a :: p = q at h
  cases h with
  | nil => exact absurd hq (by simp)
  | lit hb hc hfold hrec =>
    injection hq with h1 h2
    subst h1; subst h2
    exact ⟨_, _, rfl, hfold, hrec⟩
  | underscore hterm hrec =>
    injection hq with h1 h2
    exact absurd h1 ha2
  | percent w v2 hw hrec =>
    injection hq with h1 h2
    exact absurd h1 ha1

theorem matchToks_iff_sqlLike :
    ∀ (n : Nat) (p v : List Char), p.length + v.length ≤ n →
      (matchToks (p.map tokOf) v = true ↔ SqlLikeMatch p v) := by
  intro n
  induction n with
  | zero =>
    intro p v h
    cases p with
    | nil =>
      cases v with
      | nil =>
        constructor
        · intro _; exact .nil
        · intro _; rfl
      | cons c v' => simp at h
    | cons a p' => simp at h
  | succ n ih =>
    intro p v hlen
    cases p with
    | nil =>
      cases v with
      | nil =>
        constructor
        · intro _; exact .nil
        · intro _; rfl
      | cons c v' =>
        constructor
        · intro h'; exact absurd h' (by simp [matchToks, matchToksF])
        · intro h'; exact absurd (sqlLike_nil_inv h') (by simp)
    | cons a p' =>
      simp only [List.length_cons] at hlen
      by_cases ha1 : a = '%'
      · subst ha1
        rw [show ('%' :: p').map tokOf = .anyStar :: p'.map tokOf by simp [tokOf]]
        cases v with
        | nil =>
          rw [matchToks_star_nil]
          rw [ih p' [] (by simp; omega)]
          constructor
          · intro h'
            have := SqlLikeMatch.percent (p := p') [] [] (by simp) h'
            simpa using this
          · intro h'
            obtain ⟨w, v2, hv, hw, hrec⟩ := sqlLike_percent_inv h'
            have hw0 : w = [] ∧ v2 = [] := by
              constructor
              · exact List.append_eq_nil.mp hv.symm |>.1
              · exact List.append_eq_nil.mp hv.symm |>.2
            rw [hw0.2] at hrec
            exact hrec
        | cons c v' =>
          simp only [List.length_cons] at hlen
          rw [matchToks_star_cons]
          rw [show (RegexTok.anyStar :: p'.map tokOf) = ('%' :: p').map tokOf by simp [tokOf]]
          simp only [Bool.or_eq_true, Bool.and_eq_true, Bool.not_eq_true']
          rw [ih p' (c :: v') (by simp; omega), ih ('%' :: p') v' (by simp; omega)]
          constructor
          · rintro (h' | ⟨hc, h'⟩)
            · exact (SqlLikeMatch.percent [] (c :: v') (by simp) h' : SqlLikeMatch _ ([] ++ (c :: v')))
            · obtain ⟨w, v2, hv, hw, hrec⟩ := sqlLike_percent_inv h'
              subst hv
              exact SqlLikeMatch.percent (c :: w) v2
                (by intro x hx; rcases List.mem_cons.mp hx with rfl | hx
                    · exact hc
                    · exact hw x hx) hrec
          · intro h'
            obtain ⟨w, v2, hv, hw, hrec⟩ := sqlLike_percent_inv h'
            cases w with
            | nil =>
              left
              simp only [List.nil_append] at hv
              rw [← hv] at hrec
              exact hrec
            | cons c0 w' =>
              right
              injection hv with h1 h2
              subst h1
              constructor
              · exact hw c (List.mem_cons_self _ _)
              · rw [h2]
                exact SqlLikeMatch.percent w' v2 (fun x hx => hw x (List.mem_cons_of_mem _ hx)) hrec
      · by_cases ha2 : a = '_'
        · subst ha2
          rw [show ('_' :: p').map tokOf = .anyChar :: p'.map tokOf by simp [tokOf]]
          cases v with
          | nil =>
            constructor
            · intro h'; exact absurd h' (by simp [matchToks, matchToksF])
            · intro h'
              obtain ⟨c, v', hv, _, _⟩ := sqlLike_underscore_inv h'
              exact absurd hv (by simp)
          | cons c v' =>
            simp only [List.length_cons] at hlen
            rw [matchToks_any]
            simp only [Bool.and_eq_true, Bool.not_eq_true']
            rw [ih p' v' (by omega)]
            constructor
            · rintro ⟨hc, h'⟩
              exact SqlLikeMatch.underscore hc h'
            · intro h'
              obtain ⟨c0, v0, hv, hterm, hrec⟩ := sqlLike_underscore_inv h'
              injection hv with h1 h2
              subst h1; subst h2
              exact ⟨hterm, hrec⟩
        · rw [show (a :: p').map tokOf = .lit a :: p'.map tokOf by simp [tokOf, ha1, ha2]]
          cases v with
          | nil =>
            constructor
            · intro h'; exact absurd h' (by simp [matchToks, matchToksF])
            · intro h'
              obtain ⟨c, v', hv, _, _⟩ := sqlLike_lit_inv ha1 ha2 h'
              exact absurd hv (by simp)
          | cons c v' =>
            simp only [List.length_cons] at hlen
            rw [matchToks_lit]
            simp only [Bool.and_eq_true, beq_iff_eq]
            rw [ih p' v' (by omega)]
            constructor
            · rintro ⟨hfold, h'⟩
              exact SqlLikeMatch.lit ha1 ha2 hfold h'
            · intro h'
              obtain ⟨c0, v0, hv, hfold, hrec⟩ := sqlLike_lit_inv ha1 ha2 h'
              injection hv with h1 h2
              subst h1; subst h2
              exact ⟨hfold, hrec⟩

/-! ## Lemmas: executor characterizations -/

theorem matchesWhereConditions_append (node : NodeModel) (c1 c2 : List WhereCondition) :
    matchesWhereConditions node (c1 ++ c2)
      = (matchesWhereConditions node c1 && matchesWhereConditions node c2) := by
  unfold matchesWhereConditions
  exact List.all_append

theorem execute_nodes_some (options : SelectorOptions) (project : ProjectModel)
    (t : String) (conds : List WhereCondition) (wr : Bool) :
    (execute options project ⟨t, some conds, wr⟩).nodes
      = (if t == "SourceFile" then project.sourceFiles.map (fun sf => sf.self)
         else project.sourceFiles.flatMap (fun sf => getNodesByType sf t)).filter
          (fun n => matchesWhereConditions n conds) := by
  unfold execute filterSourceFiles
  by_cases ht : t == "SourceFile" <;> simp [ht]

theorem filter_inter_key (l : List NodeModel) (c1 c2 : List WhereCondition) :
    l.filter (fun n => matchesWhereConditions n (c1 ++ c2))
      = (l.filter (fun n => matchesWhereConditions n c1)).filter
          (fun n => decide (n ∈ l.filter (fun n => matchesWhereConditions n c2))) := by
  rw [List.filter_filter]
  apply List.filter_congr
  intro n hn
  rw [matchesWhereConditions_append]
  simp [List.mem_filter, hn, Bool.and_comm]

theorem getReferences_mem_iff (nodes : List NodeModel) (n : NodeModel) (l : List Nat) :
    (n, l) ∈ getReferences nodes ↔ n ∈ nodes ∧ l = refList n ∧ l ≠ [] := by
  simp only [getReferences, List.mem_filterMap]
  constructor
  · rintro ⟨m, hm, hf⟩
    by_cases hE : (refList m).isEmpty
    · simp [hE] at hf
    · simp only [hE, Bool.false_eq_true, if_false, Option.some.injEq, Prod.mk.injEq] at hf
      obtain ⟨rfl, rfl⟩ := hf
      refine ⟨hm, rfl, ?_⟩
      intro hnil
      rw [hnil] at hE
      exact hE rfl
  · rintro ⟨hn, rfl, hne⟩
    refine ⟨n, hn, ?_⟩
    have : (refList n).isEmpty = false := by
      cases hE : (refList n).isEmpty
      · rfl
      · exact absurd (List.isEmpty_iff.mp hE) hne
    simp [this]

/-! ## The claims -/

/-- C1: for every candidate node and every filter predicate, if the extracted
value for the predicate's attribute is absent, the predicate evaluates to
false and the node is excluded, regardless of the operator — including
NOT_EQUALS, NOT_LIKE and NOT_IN, which do not treat absence as an automatic
pass. -/
theorem c1_absent_attribute_excludes (node : NodeModel) (condition : WhereCondition)
    (h : getPropertyValue node condition.property = none) :
    matchesCondition node condition = false := by
  unfold matchesCondition
  rw [h]

/-- Witness for C1: the fixture file handle has no name, and a NOT_EQUALS
predicate on `name` fails on it. -/
theorem c1_absent_attribute_excludes_witness :
    getPropertyValue sampleFileNode "name" = none
  ∧ matchesCondition sampleFileNode
      { property := "name", operator := .NOT_EQUALS, value := .str "User" } = false :=
  ⟨rfl, c1_absent_attribute_excludes sampleFileNode
     { property := "name", operator := .NOT_EQUALS, value := .str "User" } rfl⟩

/-- Counterexample to C2 as stated: with `%` read as *zero or more of any
character* (`SqlLikeClaim`), the value `"a\nb"` satisfies LIKE `"%"`, yet
`matchesPattern` rejects it — the regex `.` built for the wildcards does not
match line terminators because the `s` flag is absent. -/
theorem c2_counterexample :
    SqlLikeClaim "%".data "a\nb".data ∧ matchesPattern "a\nb" "%" = false := by
  constructor
  · exact SqlLikeClaim.percent (p := []) ['a', '\n', 'b'] [] SqlLikeClaim.nil
  · rfl

/-- C2, amended: the LIKE test is the case-insensitive full-string anchored
match in which literal characters compare under case folding, `%` stands for
zero or more characters none of which is a line terminator, and `_` for
exactly one non-line-terminator character. -/
theorem c2_amended_like_semantics (value pattern : String) :
    matchesPattern value pattern = true ↔ SqlLikeMatch pattern.data value.data := by
  unfold matchesPattern
  rw [tokenize_likeRegexSource]
  exact matchToks_iff_sqlLike (pattern.data.length + value.data.length)
    pattern.data value.data (le_refl _)

/-- C3: for a fixed program state, executing a descriptor whose predicate
list is `c1 ++ c2` returns exactly the nodes appearing in both the result
for `c1` alone and the result for `c2` alone, in the order of the unfiltered
collection (the result with the empty predicate list); a node survives
filtering iff it satisfies every predicate in the list. -/
theorem c3_and_is_intersection (options : SelectorOptions) (project : ProjectModel)
    (t : String) (c1 c2 : List WhereCondition) (wr : Bool) :
    ((execute options project ⟨t, some (c1 ++ c2), wr⟩).nodes
       = ((execute options project ⟨t, some c1, wr⟩).nodes).filter
           (fun n => decide (n ∈ (execute options project ⟨t, some c2, wr⟩).nodes)))
  ∧ ∀ n : NodeModel,
      n ∈ (execute options project ⟨t, some (c1 ++ c2), wr⟩).nodes
        ↔ n ∈ (execute options project ⟨t, some [], wr⟩).nodes
          ∧ ∀ cond ∈ c1 ++ c2, matchesCondition n cond = true := by
  rw [execute_nodes_some, execute_nodes_some, execute_nodes_some, execute_nodes_some]
  constructor
  · exact filter_inter_key _ c1 c2
  · intro n
    simp only [List.mem_filter, matchesWhereConditions_append, Bool.and_eq_true,
      matchesWhereConditions, List.all_eq_true, List.all_nil, and_true, List.mem_append]

/-- C4: a query whose body (after whitespace normalization and removal of
the `WITH REFERENCES` clause) contains no `FROM <identifier>` fails with the
descriptive missing-FROM error and no descriptor; `validate` reports valid
exactly when `parse` succeeds; and on a parse failure `validate` returns
`valid = false` together with the parse error message. -/
theorem c4_missing_from_and_validate (q : String) :
    (searchFromClause (queryBody q) = none →
       parse q = Except.error "Invalid query: missing FROM clause")
  ∧ ((validate q).valid = true ↔ (parse q).isOk = true)
  ∧ (∀ e : String, parse q = Except.error e →
       validate q = { valid := false, error := some e }) := by
  refine ⟨?_, ?_, ?_⟩
  · intro h
    unfold parse
    rw [h]
  · unfold validate
    cases hp : parse q <;> simp [Except.isOk, Except.toBool]
  · intro e h
    unfold validate
    rw [h]

/-- Witness for C4 at concrete queries: the malformed query fails with the
missing-FROM message, which `validate` reports verbatim alongside
`valid = false`. -/
theorem c4_witness :
    parse "INVALID QUERY" = Except.error "Invalid query: missing FROM clause"
  ∧ ((validate "SELECT * FROM InterfaceDeclaration").valid = true
       ↔ (parse "SELECT * FROM InterfaceDeclaration").isOk = true)
  ∧ validate "INVALID QUERY"
      = { valid := false, error := some "Invalid query: missing FROM clause" } :=
  ⟨(c4_missing_from_and_validate "INVALID QUERY").1 rfl,
   (c4_missing_from_and_validate "SELECT * FROM InterfaceDeclaration").2.1,
   (c4_missing_from_and_validate "INVALID QUERY").2.2
     "Invalid query: missing FROM clause" rfl⟩

/-- Counterexample to C5 as stated: `parse` returns a descriptor whose
category `"Foo"` is not a recognized kind — the source casts the captured
word to `NodeType` without any validation. -/
theorem c5_counterexample :
    parse "SELECT * FROM Foo"
      = Except.ok { nodeType := "Foo", whereConds := none, withReferences := false }
  ∧ "Foo" ∉ recognizedNodeTypes :=
  ⟨rfl, by decide⟩

/-- C5, amended: `parse` accepts any `FROM` identifier without validating it
against the recognized kinds; an unrecognized category is handled leniently
at execution time, where candidate collection yields the empty list. -/
theorem c5_amended_any_category_parses :
    parse "SELECT * FROM Foo"
      = Except.ok { nodeType := "Foo", whereConds := none, withReferences := false }
  ∧ ∀ (sourceFile : SourceFileModel) (t : String),
      t ∉ recognizedNodeTypes → getNodesByType sourceFile t = [] := by
  refine ⟨rfl, ?_⟩
  intro sf t h
  simp only [recognizedNodeTypes, List.mem_cons, List.not_mem_nil, or_false, not_or] at h
  obtain ⟨h1, h2, h3, h4, h5, h6, h7, h8, h9, h10, h11, h12⟩ := h
  simp [getNodesByType, h1, h2, h3, h4, h5, h6, h7, h8, h9, h10, h11, h12]

/-- Witness for the amended C5: the unrecognized category `"Foo"` yields no
candidates from the fixture file. -/
theorem c5_amended_witness :
    parse "SELECT * FROM Foo"
      = Except.ok { nodeType := "Foo", whereConds := none, withReferences := false }
  ∧ getNodesByType sampleFile "Foo" = [] :=
  ⟨c5_amended_any_category_parses.1,
   c5_amended_any_category_parses.2 sampleFile "Foo" (by decide)⟩

/-- C6: on a non-absent extracted value, NOT_LIKE is the exact complement of
LIKE for every pattern, and NOT_IN the exact complement of IN for every
operand list. -/
theorem c6_negated_operators_complement (node : NodeModel) (prop v : String)
    (h : getPropertyValue node prop = some v) (p : String) (L : List String) :
    (matchesCondition node { property := prop, operator := .NOT_LIKE, value := .str p }
       = !matchesCondition node { property := prop, operator := .LIKE, value := .str p })
  ∧ (matchesCondition node { property := prop, operator := .NOT_IN, value := .list L }
       = !matchesCondition node { property := prop, operator := .IN, value := .list L }) := by
  unfold matchesCondition
  rw [h]
  exact ⟨rfl, rfl⟩

/-- Witness for C6 on the fixture interface `User`. -/
theorem c6_witness :
    getPropertyValue userInterface "name" = some "User"
  ∧ (matchesCondition userInterface { property := "name", operator := .NOT_LIKE, value := .str "Use_" }
       = !matchesCondition userInterface { property := "name", operator := .LIKE, value := .str "Use_" })
  ∧ (matchesCondition userInterface { property := "name", operator := .NOT_IN, value := .list ["User", "Product"] }
       = !matchesCondition userInterface { property := "name", operator := .IN, value := .list ["User", "Product"] }) :=
  ⟨rfl,
   (c6_negated_operators_complement userInterface "name" "User" rfl "Use_" ["User", "Product"]).1,
   (c6_negated_operators_complement userInterface "name" "User" rfl "Use_" ["User", "Product"]).2⟩

/-- Counterexample to C7 as stated: a `SourceFile` query with
`includeReferences` true yields a result with surviving declarations but
**no** references map at all — the `SourceFile` branch of `execute` returns
`references: undefined` unconditionally. -/
theorem c7_counterexample :
    (execute ⟨none, none⟩ sampleProject
       { nodeType := "SourceFile", whereConds := none, withReferences := true }).references = none
  ∧ (execute ⟨none, none⟩ sampleProject
       { nodeType := "SourceFile", whereConds := none, withReferences := true }).nodes ≠ [] :=
  ⟨rfl, by decide⟩

/-- C7, amended: when `includeReferences` is false the result carries no
references map; `SourceFile`-category queries never carry one even when it
is true; for every other category, when it is true the map assigns each
surviving declaration with at least one occurrence its ordered occurrence
list, and declarations yielding zero occurrences (including kinds without
reference-resolution support) are omitted entirely, never mapped to an
empty list. -/
theorem c7_amended_references_map (options : SelectorOptions) (project : ProjectModel)
    (query : ParsedQuery) :
    (query.withReferences = false → (execute options project query).references = none)
  ∧ (query.nodeType = "SourceFile" → (execute options project query).references = none)
  ∧ (query.withReferences = true → query.nodeType ≠ "SourceFile" →
       (execute options project query).references
         = some (getReferences (execute options project query).nodes))
  ∧ (∀ entry ∈ getReferences (execute options project query).nodes,
       entry.1 ∈ (execute options project query).nodes
         ∧ entry.2 = refList entry.1 ∧ entry.2 ≠ [])
  ∧ (∀ n ∈ (execute options project query).nodes,
       (refList n ≠ [] →
          (n, refList n) ∈ getReferences (execute options project query).nodes)
     ∧ (refList n = [] →
          ∀ l, (n, l) ∉ getReferences (execute options project query).nodes)) := by
  refine ⟨?_, ?_, ?_, ?_, ?_⟩
  · intro h
    unfold execute filterSourceFiles
    by_cases ht : query.nodeType == "SourceFile" <;> simp [ht, h]
  · intro h
    unfold execute filterSourceFiles
    simp [h]
  · intro hwr hns
    unfold execute filterSourceFiles
    have ht : (query.nodeType == "SourceFile") = false := beq_eq_false_iff_ne.mpr hns
    simp [ht, hwr]
  · intro entry he
    obtain ⟨n, l⟩ := entry
    obtain ⟨hn, hl, hne⟩ := (getReferences_mem_iff _ _ _).mp he
    exact ⟨hn, hl, hne⟩
  · intro n hn
    constructor
    · intro hne
      exact (getReferences_mem_iff _ _ _).mpr ⟨hn, rfl, hne⟩
    · intro h0 l hl
      obtain ⟨_, heq, hne⟩ := (getReferences_mem_iff _ _ _).mp hl
      exact hne (heq.trans h0)

/-- Witness for the amended C7: an interface query with references on the
fixture program carries the map built by `getReferences`. -/
theorem c7_amended_witness :
    (execute ⟨none, none⟩ sampleProject
       { nodeType := "InterfaceDeclaration", whereConds := none, withReferences := true }).references
      = some (getReferences (execute ⟨none, none⟩ sampleProject
          { nodeType := "InterfaceDeclaration", whereConds := none, withReferences := true }).nodes) :=
  (c7_amended_references_map ⟨none, none⟩ sampleProject
     { nodeType := "InterfaceDeclaration", whereConds := none, withReferences := true }).2.2.1
    rfl (by decide)

/-- Counterexample to C8 as stated: with the maximum-result-count option
configured to `0` and two matches, the façade returns both matches — the
JavaScript guard `this.options.maxResults && ...` treats `0` as falsy and
skips truncation. -/
theorem c8_counterexample :
    (selectorQuery ⟨none, some 0⟩ sampleProject "SELECT * FROM InterfaceDeclaration").map
        (fun r => r.nodes.length) = Except.ok 2 := rfl

/-- C8, amended: when the maximum-result-count option is configured to a
nonzero value smaller than the number of matches, the façade truncates the
match list to its first `m` entries in order, leaving the references map
untouched; a configured value of `0` behaves like the option being absent. -/
theorem c8_amended_truncation :
    (∀ (project : ProjectModel) (queryString : String) (pq : ParsedQuery) (m : Nat),
       parse queryString = Except.ok pq → 0 < m →
       m < (execute ⟨none, none⟩ project pq).nodes.length →
       selectorQuery ⟨none, some m⟩ project queryString
         = Except.ok { nodes := (execute ⟨none, none⟩ project pq).nodes.take m,
                       references := (execute ⟨none, none⟩ project pq).references })
  ∧ (∀ (project : ProjectModel) (queryString : String),
       selectorQuery ⟨none, some 0⟩ project queryString
         = selectorQuery ⟨none, none⟩ project queryString) := by
  constructor
  · intro project qs pq m hp hm hlen
    unfold selectorQuery
    rw [hp]
    show Except.ok
        (if 0 < m ∧ m < (execute ⟨none, none⟩ project pq).nodes.length
         then { nodes := (execute ⟨none, none⟩ project pq).nodes.take m,
                references := (execute ⟨none, none⟩ project pq).references }
         else execute ⟨none, none⟩ project pq) = _
    rw [if_pos ⟨hm, hlen⟩]
  · intro project qs
    unfold selectorQuery
    cases hp : parse qs
    · rfl
    · simp

/-- Witness for the amended C8: truncation to one entry on the fixture. -/
theorem c8_amended_witness :
    selectorQuery ⟨none, some 1⟩ sampleProject "SELECT * FROM InterfaceDeclaration"
      = Except.ok { nodes := (execute ⟨none, none⟩ sampleProject
                       { nodeType := "InterfaceDeclaration", whereConds := none,
                         withReferences := false }).nodes.take 1,
                    references := (execute ⟨none, none⟩ sampleProject
                       { nodeType := "InterfaceDeclaration", whereConds := none,
                         withReferences := false }).references } :=
  c8_amended_truncation.1 sampleProject "SELECT * FROM InterfaceDeclaration"
    { nodeType := "InterfaceDeclaration", whereConds := none, withReferences := false }
    1 rfl (by decide) (by decide)

/-- C9: the façade constructs its executor without forwarding the selector
options, the `SelectorOptions` type exposes no file-pattern field, so the
glob branch of `filterSourceFiles` is dead: every query scans all source
files of the project, whatever the selector options are. -/
theorem c9_facade_scans_all_files :
    (∀ (options : SelectorOptions) (sourceFiles : List SourceFileModel),
       filterSourceFiles options sourceFiles = sourceFiles)
  ∧ (∀ (options₁ options₂ : SelectorOptions) (project : ProjectModel) (query : ParsedQuery),
       execute options₁ project query = execute options₂ project query)
  ∧ (∀ (options : SelectorOptions) (project : ProjectModel) (queryString : String)
       (pq : ParsedQuery), parse queryString = Except.ok pq → options.maxResults = none →
       selectorQuery options project queryString = Except.ok (execute options project pq)) := by
  refine ⟨fun _ _ => rfl, fun _ _ _ _ => rfl, ?_⟩
  intro options project qs pq hp hm
  unfold selectorQuery
  rw [hp, hm]
  rfl

/-- Witness for C9 at a concrete query. -/
theorem c9_witness :
    selectorQuery ⟨none, none⟩ sampleProject "SELECT * FROM ClassDeclaration"
      = Except.ok (execute ⟨none, none⟩ sampleProject
          { nodeType := "ClassDeclaration", whereConds := none, withReferences := false }) :=
  c9_facade_scans_all_files.2.2 ⟨none, none⟩ sampleProject "SELECT * FROM ClassDeclaration"
    { nodeType := "ClassDeclaration", whereConds := none, withReferences := false } rfl rfl

/-- Counterexample to C10 as stated: the input `"FROM WITH REFERENCES"`
contains the keyword `FROM` followed by whitespace and an identifier, yet
`parse` throws — stripping the `WITH REFERENCES` clause first leaves no
identifier after `FROM`. -/
theorem c10_counterexample :
    (searchFromClause "FROM WITH REFERENCES".data).isSome = true
  ∧ parse "FROM WITH REFERENCES" = Except.error "Invalid query: missing FROM clause" :=
  ⟨rfl, rfl⟩

/-- C10, amended: `parse` raises an error only for a missing FROM clause;
every input whose body after whitespace normalization and removal of the
first `WITH REFERENCES` occurrence contains `FROM` followed by an identifier
parses successfully; in particular `"FROM ClassDeclaration"` parses although
it has no `SELECT` keyword. -/
theorem c10_amended_parse_totality :
    (∀ (q e : String), parse q = Except.error e → e = "Invalid query: missing FROM clause")
  ∧ (∀ q : String, (searchFromClause (queryBody q)).isSome = true → (parse q).isOk = true)
  ∧ parse "FROM ClassDeclaration"
      = Except.ok { nodeType := "ClassDeclaration", whereConds := none,
                    withReferences := false } := by
  refine ⟨?_, ?_, rfl⟩
  · intro q e h
    unfold parse at h
    cases hs : searchFromClause (queryBody q) <;> rw [hs] at h
    · injection h with h'
      exact h'.symm
    · exact absurd h (by simp)
  · intro q h
    unfold parse
    cases hs : searchFromClause (queryBody q)
    · rw [hs] at h; simp at h
    · rfl

/-- Witness for the amended C10. -/
theorem c10_amended_witness : (parse "FROM ClassDeclaration").isOk = true :=
  c10_amended_parse_totality.2.1 "FROM ClassDeclaration" rfl

end TsMorph
